import Mathlib

/-!
Verification of the log-parsing and aggregation core of the web-log-analyzer
repository (`backend/analyzer/log_parser.py` and
`backend/analyzer/spark_analyzer.py`), against its natural-language
specification.

The Python code is shallowly embedded: every function of the source that the
claims touch is translated into an executable Lean definition of the same
name.  Python exceptions are modelled with `Except String`; `None` with
`Option`.  The two log-line regular expressions are embedded as pattern ASTs
interpreted by a small backtracking matcher (`runP`) that mirrors the greedy,
longest-first semantics of Python's `re.match` for the constructs these
patterns use (single-character classes under `+`/`*` quantifiers, literals,
capture groups, and greedy optional groups).
-/

namespace WebLog

/-- Python's `\s` class (`str.strip` uses the same set).  The ASCII and
Latin-1 whitespace characters are listed; rare astral Unicode space
separators, which never occur in the inputs considered here, are omitted. -/
def pyIsSpace (c : Char) : Bool :=
  c = ' ' || c = '\t' || c = '\n' || c = '\r' || c = '\x0b' || c = '\x0c' ||
  c = '\x1c' || c = '\x1d' || c = '\x1e' || c = '\x1f' || c = '\x85' || c = '\xa0'

/-- Character classes occurring in the source's regular expressions.
`nonspace` is `\S`, `space` is `\s`, `digit` is `\d` (ASCII; the logs hold
ASCII digits), `word` is `\w`, `notRBracket` is `[^\]]`, `notQuote` is
`[^"]`, `pm` is `[+-]`. -/
inductive CharCls where
  | nonspace | space | digit | word | notRBracket | notQuote | pm
  deriving DecidableEq, Repr

def CharCls.mem : CharCls → Char → Bool
  | .nonspace, c => !(pyIsSpace c)
  | .space, c => pyIsSpace c
  | .digit, c => c.isDigit
  | .word, c => c.isAlphanum || c = '_'
  | .notRBracket, c => c ≠ ']'
  | .notQuote, c => c ≠ '"'
  | .pm, c => c = '+' || c = '-'

/-- A simple (unquantified-group-free) regex item: a literal character, a
greedy quantified class, a capture group around a quantified class, or a
capture group around `[k1]k2+` (used for the `([+-]\d+)` timezone group). -/
inductive SPat where
  | lit (c : Char)
  | plus (k : CharCls)
  | star (k : CharCls)
  | grpPlus (n : Nat) (k : CharCls)
  | grpStar (n : Nat) (k : CharCls)
  | grpCls2 (n : Nat) (k1 k2 : CharCls)
  deriving DecidableEq, Repr

/-- A regex item: either simple, or a greedy optional non-capturing group
`(?: ... )?` whose body is a sequence of simple items (the shape used by all
three regexes of the source). -/
inductive Pat where
  | simple (sp : SPat)
  | opt (inner : List SPat)
  deriving DecidableEq, Repr

/-- Capture environment: group number paired with the captured characters.
A successful match records each participating group exactly once. -/
abbrev Caps := List (Nat × List Char)

/-- Splitting: `charsSpan k s = (run, rest)` cuts `s` into its maximal leading run of
`k`-characters and the remainder. -/
def charsSpan (k : CharCls) : List Char → List Char × List Char
  | [] => ([], [])
  | c :: s =>
    if k.mem c then
      let (r, t) := charsSpan k s
      (c :: r, t)
    else ([], c :: s)

/-- All ways to consume a nonempty prefix of the class-run `run` (suffix
`rest` following it), as `(consumed, remaining)` pairs, longest consumption
first — the order in which a greedy backtracking matcher tries them. -/
def descSplits : List Char → List Char → List (List Char × List Char)
  | [], _ => []
  | c :: run, rest =>
    (descSplits run rest).map (fun pr => (c :: pr.1, pr.2)) ++ [([c], run ++ rest)]

/-- First success of `f` over a list of alternatives. -/
def firstSome {α β : Type} (f : α → Option β) : List α → Option β
  | [] => none
  | a :: as =>
    match f a with
    | some b => some b
    | none => firstSome f as

/-- Backtracking interpreter for a pattern sequence, mirroring `re.match`:
anchored at the start, trailing input allowed, greedy quantifiers and greedy
optional groups tried longest/present first.  `fuel` bounds the recursion
depth; every recursive call removes one item from the pattern sequence (an
optional group unfolds to its body), so any fuel exceeding the total number
of items in the pattern — bodies of optional groups included — is enough,
and the result is then fuel-independent. -/
def runP : Nat → List Pat → List Char → Caps → Option Caps
  | 0, _, _, _ => none
  | _ + 1, [], _, caps => some caps
  | fuel + 1, .simple sp :: ps, s, caps =>
    match sp with
    | .lit c =>
      match s with
      | [] => none
      | c' :: s' => if c' = c then runP fuel ps s' caps else none
    | .plus k =>
      let (run, rest) := charsSpan k s
      firstSome (fun pr => runP fuel ps pr.2 caps) (descSplits run rest)
    | .star k =>
      let (run, rest) := charsSpan k s
      firstSome (fun pr => runP fuel ps pr.2 caps) (descSplits run rest ++ [([], s)])
    | .grpPlus n k =>
      let (run, rest) := charsSpan k s
      firstSome (fun pr => runP fuel ps pr.2 ((n, pr.1) :: caps)) (descSplits run rest)
    | .grpStar n k =>
      let (run, rest) := charsSpan k s
      firstSome (fun pr => runP fuel ps pr.2 ((n, pr.1) :: caps))
        (descSplits run rest ++ [([], s)])
    | .grpCls2 n k1 k2 =>
      match s with
      | [] => none
      | c :: s' =>
        if k1.mem c then
          let (run, rest) := charsSpan k2 s'
          firstSome (fun pr => runP fuel ps pr.2 ((n, c :: pr.1) :: caps))
            (descSplits run rest)
        else none
  | fuel + 1, .opt inner :: ps, s, caps =>
    match runP fuel (inner.map .simple ++ ps) s caps with
    | some r => some r
    | none => runP fuel ps s caps

/-- Number of capture groups of a simple item. -/
def SPat.groups : SPat → Nat
  | .grpPlus _ _ => 1
  | .grpStar _ _ => 1
  | .grpCls2 _ _ _ => 1
  | _ => 0

/-- Number of capture groups of an item. -/
def Pat.groups : Pat → Nat
  | .simple sp => sp.groups
  | .opt inner => (inner.map SPat.groups).sum

/-- Number of capture groups of a pattern, as `re` counts them. -/
def numGroups (ps : List Pat) : Nat := (ps.map Pat.groups).sum

/-- Look up the characters captured by group `n`. -/
def lookupCap : Caps → Nat → Option (List Char)
  | [], _ => none
  | (m, v) :: caps, n => if m = n then some v else lookupCap caps n

/-- The `match.groups()` tuple: one entry per capture group of the pattern, in group
order, `none` for groups that did not participate in the match. -/
def groupsTuple (caps : Caps) (n : Nat) : List (Option String) :=
  (List.range n).map (fun i => (lookupCap caps (i + 1)).map (fun cs => (⟨cs⟩ : String)))

/-- Fuel used to interpret the source's patterns; far above the item count
of any of them (the largest has 33 items counting optional-group bodies). -/
def FUEL : Nat := 100

/-- Model of `pattern.match(s)`: `none` when the pattern does not match at the start
of `s`, otherwise `some` of the `groups()` tuple. -/
def reMatch (pats : List Pat) (s : String) : Option (List (Option String)) :=
  (runP FUEL pats s.toList []).map (fun caps => groupsTuple caps (numGroups pats))

/-- The part the two line-oriented regexes share verbatim, starting at the
bracketed timestamp:
`\[([^\]]+)\]\s+"(\S+)\s+(\S+)\s*(\S*)"\s+(\d+)\s+(\S+)(?:\s+"([^"]*)"\s+"([^"]*)")?(?:\s+(\d+))?` -/
def COMBINED_TAIL : List Pat :=
  [.simple (.lit '['), .simple (.grpPlus 2 .notRBracket), .simple (.lit ']'),
   .simple (.plus .space), .simple (.lit '"'),
   .simple (.grpPlus 3 .nonspace), .simple (.plus .space),
   .simple (.grpPlus 4 .nonspace), .simple (.star .space),
   .simple (.grpStar 5 .nonspace), .simple (.lit '"'),
   .simple (.plus .space), .simple (.grpPlus 6 .digit),
   .simple (.plus .space), .simple (.grpPlus 7 .nonspace),
   .opt [.plus .space, .lit '"', .grpStar 8 .notQuote, .lit '"',
         .plus .space, .lit '"', .grpStar 9 .notQuote, .lit '"'],
   .opt [.plus .space, .grpPlus 10 .digit]]

/-- The source's `APACHE_COMBINED_REGEX`: `^(\S+)\s+\S+\s+\S+\s+` followed
by `COMBINED_TAIL`. -/
def APACHE_COMBINED_REGEX : List Pat :=
  .simple (.grpPlus 1 .nonspace) :: .simple (.plus .space) ::
  .simple (.plus .nonspace) :: .simple (.plus .space) ::
  .simple (.plus .nonspace) :: .simple (.plus .space) :: COMBINED_TAIL

/-- The source's `NGINX_REGEX`: `^(\S+)\s+-\s+-\s+` followed by
`COMBINED_TAIL`.  It differs from `APACHE_COMBINED_REGEX` only in requiring
the two placeholder tokens to be the literal character `-`. -/
def NGINX_REGEX : List Pat :=
  .simple (.grpPlus 1 .nonspace) :: .simple (.plus .space) ::
  .simple (.lit '-') :: .simple (.plus .space) ::
  .simple (.lit '-') :: .simple (.plus .space) :: COMBINED_TAIL

/-- The timestamp pattern `(\d+)/(\w+)/(\d+):(\d+):(\d+):(\d+)\s*([+-]\d+)?`
used by `parse_apache_timestamp`. -/
def TS_REGEX : List Pat :=
  [.simple (.grpPlus 1 .digit), .simple (.lit '/'),
   .simple (.grpPlus 2 .word), .simple (.lit '/'),
   .simple (.grpPlus 3 .digit), .simple (.lit ':'),
   .simple (.grpPlus 4 .digit), .simple (.lit ':'),
   .simple (.grpPlus 5 .digit), .simple (.lit ':'),
   .simple (.grpPlus 6 .digit), .simple (.star .space),
   .opt [.grpCls2 7 .pm .digit]]

/-! ### Python string primitives used by the parser -/

/-- Strip characters satisfying `p` from both ends of a character list. -/
def stripEnds (p : Char → Bool) (cs : List Char) : List Char :=
  (((cs.dropWhile p).reverse).dropWhile p).reverse

/-- Python `str.strip()` (no argument: strips whitespace). -/
def pyStrip (s : String) : String := ⟨stripEnds pyIsSpace s.toList⟩

/-- Python `str.strip('"\'')`: strips double and single quotes from both
ends. -/
def pyStripQuotes (s : String) : String :=
  ⟨stripEnds (fun c => c = '"' || c = '\'') s.toList⟩

/-- Python `str.lower()` (ASCII; the header keywords are ASCII). -/
def pyLower (s : String) : String := ⟨s.toList.map Char.toLower⟩

/-- Substring containment on character lists, `needle in hay`. -/
def containsSub (hay needle : List Char) : Bool :=
  needle.isPrefixOf hay ||
    match hay with
    | [] => false
    | _ :: t => containsSub t needle

/-- Python `needle in hay` on strings. -/
def strContains (hay needle : String) : Bool := containsSub hay.toList needle.toList

/-- Python `s.split(sep)` for a single-character separator: split at every
occurrence, empty pieces kept. -/
def splitOnCharL (sep : Char) : List Char → List (List Char)
  | [] => [[]]
  | c :: t =>
    if c = sep then [] :: splitOnCharL sep t
    else
      match splitOnCharL sep t with
      | [] => [[c]]
      | h :: r => (c :: h) :: r

/-- Python `str.isdigit` (ASCII digits; the size/status tokens of the logs
are ASCII). -/
def pyIsDigitStr (cs : List Char) : Bool := !cs.isEmpty && cs.all Char.isDigit

/-- Decimal value of a digit string (`int(s)` on an all-digit `s`). -/
def natOfDigits (cs : List Char) : Nat :=
  cs.foldl (fun acc c => acc * 10 + (c.toNat - '0'.toNat)) 0

/-- Python `int(s)` for strings: surrounding whitespace allowed, an optional
sign, then a nonempty digit string; `none` models `ValueError`.  (Underscore
digit grouping, which never appears in filter inputs, is not modelled.) -/
def pyInt (s : String) : Option Int :=
  match stripEnds pyIsSpace s.toList with
  | '+' :: ds => if pyIsDigitStr ds then some (natOfDigits ds) else none
  | '-' :: ds => if pyIsDigitStr ds then some (-(natOfDigits ds : Int)) else none
  | ds => if pyIsDigitStr ds then some (natOfDigits ds) else none

/-- Python `s[:60]` on strings. -/
def take60 (s : String) : String := ⟨s.toList.take 60⟩

/-! ### The datetime model -/

/-- Model of a Python naive `datetime`.  The constructor validates all
components, so a value of this type always satisfies Python's invariants;
only the hour bound is carried in the type because the hourly-traffic proofs
need it. -/
structure DateTime where
  year : Nat
  month : Nat
  day : Nat
  hour : Fin 24
  minute : Nat
  second : Nat
  deriving DecidableEq, Repr

def isLeap (y : Nat) : Bool := (y % 4 = 0 && y % 100 ≠ 0) || y % 400 = 0

def daysInMonth (y m : Nat) : Nat :=
  if m = 2 then (if isLeap y then 29 else 28)
  else if m = 4 || m = 6 || m = 9 || m = 11 then 30
  else 31

/-- Model of `datetime(year, month, day, hour, minute, second)`: `none` models the
`ValueError` Python raises on an out-of-range component. -/
def mkDatetime (y mo d h mi s : Nat) : Option DateTime :=
  if 1 ≤ y ∧ y ≤ 9999 then
    if 1 ≤ mo ∧ mo ≤ 12 then
      if 1 ≤ d ∧ d ≤ daysInMonth y mo then
        if hh : h < 24 then
          if mi < 60 then
            if s < 60 then some ⟨y, mo, d, ⟨h, hh⟩, mi, s⟩ else none
          else none
        else none
      else none
    else none
  else none

/-- Chronological comparison of naive datetimes (what Python's datetime `<=`
computes): lexicographic on the components. -/
def DateTime.le (a b : DateTime) : Bool :=
  if a.year ≠ b.year then a.year < b.year
  else if a.month ≠ b.month then a.month < b.month
  else if a.day ≠ b.day then a.day < b.day
  else if a.hour.val ≠ b.hour.val then a.hour.val < b.hour.val
  else if a.minute ≠ b.minute then a.minute < b.minute
  else a.second ≤ b.second

/-- Model of Python `datetime.fromisoformat`, restricted to the
`YYYY-MM-DD` and `YYYY-MM-DD<sep>HH:MM:SS` shapes that occur in this
development; fractional seconds and timezone offsets (which would produce
aware datetimes) are not modelled and map to `none`. -/
def pyFromIsoformat (s : String) : Option DateTime :=
  match s.toList with
  | [y1, y2, y3, y4, '-', m1, m2, '-', d1, d2] =>
    if [y1, y2, y3, y4, m1, m2, d1, d2].all Char.isDigit then
      mkDatetime (natOfDigits [y1, y2, y3, y4]) (natOfDigits [m1, m2])
        (natOfDigits [d1, d2]) 0 0 0
    else none
  | [y1, y2, y3, y4, '-', m1, m2, '-', d1, d2, _, h1, h2, ':', n1, n2, ':', s1, s2] =>
    if [y1, y2, y3, y4, m1, m2, d1, d2, h1, h2, n1, n2, s1, s2].all Char.isDigit then
      mkDatetime (natOfDigits [y1, y2, y3, y4]) (natOfDigits [m1, m2])
        (natOfDigits [d1, d2]) (natOfDigits [h1, h2]) (natOfDigits [n1, n2])
        (natOfDigits [s1, s2])
    else none
  | _ => none

/-- Python `ts.replace('Z', '+00:00')`. -/
def pyReplaceZ (s : String) : String :=
  ⟨s.toList.flatMap (fun c => if c = 'Z' then ['+', '0', '0', ':', '0', '0'] else [c])⟩

/-! ### `log_parser.py` -/

/-- The `ParsedLogEntry` dataclass. -/
structure ParsedLogEntry where
  ip : String
  timestamp : Option DateTime
  method : String
  path : String
  protocol : String
  status : Int
  size : Int
  raw_line : String
  deriving DecidableEq, Repr

/-- The `MONTH_MAP` dict. -/
def MONTH_MAP : List (String × Nat) :=
  [("Jan", 1), ("Feb", 2), ("Mar", 3), ("Apr", 4), ("May", 5), ("Jun", 6),
   ("Jul", 7), ("Aug", 8), ("Sep", 9), ("Oct", 10), ("Nov", 11), ("Dec", 12)]

/-- Lookup `MONTH_MAP.get(month, 1)`. -/
def monthLookup (m : String) : Nat :=
  match MONTH_MAP.find? (fun p => p.1 = m) with
  | some p => p.2
  | none => 1

/-- The `CSV_HEADER_KEYWORDS` list. -/
def CSV_HEADER_KEYWORDS : List String :=
  ["ip", "address", "timestamp", "date", "method", "url", "path", "status",
   "size", "bytes"]

/-- Source `parse_apache_timestamp`: match the timestamp pattern; on a match,
build a datetime from the six numeric groups (month name through
`MONTH_MAP`, unknown names defaulting to month 1), ignoring the captured
timezone offset; `none` on a failed match or an out-of-range component
(the caught `ValueError`). -/
def parse_apache_timestamp (timestamp_str : String) : Option DateTime :=
  match reMatch TS_REGEX timestamp_str with
  | some [some day, some month, some year, some hour, some minute, some second, _tz] =>
    mkDatetime (natOfDigits year.toList) (monthLookup month) (natOfDigits day.toList)
      (natOfDigits hour.toList) (natOfDigits minute.toList) (natOfDigits second.toList)
  | _ => none

/-- The message of the `ValueError` raised at
`ip, timestamp_str, method, path, protocol, status, size = match.groups()`
when the pattern has a number of groups other than seven (both line
patterns have ten). -/
def unpackMsg : String := "ValueError: too many values to unpack (expected 7)"

/-- The body of `parse_log_line` once a pattern has matched, starting at the
unpacking of `match.groups()`.  A `groups()` tuple of any shape other than
seven present groups fails to unpack into the seven variables, modelled by
the catch-all arm; for a seven-group tuple the body proceeds: size `"-"`
drops the entry, non-digit size or status default to 0, empty
method/path/protocol take their defaults. -/
def parseLineMatched (gs : List (Option String)) (line : String) :
    Except String (Option ParsedLogEntry) :=
  match gs with
  | [some ip, some timestamp_str, some method, some path, some protocol,
     some status, some size] =>
    let parsed_size : Int :=
      if size = "-" then 0 else if pyIsDigitStr size.toList then natOfDigits size.toList else 0
    if size = "-" then .ok none
    else .ok (some {
      ip := ip
      timestamp := parse_apache_timestamp timestamp_str
      method := if method = "" then "GET" else method
      path := if path = "" then "/" else path
      protocol := if protocol = "" then "HTTP/1.1" else protocol
      status := if pyIsDigitStr status.toList then (natOfDigits status.toList : Int) else 0
      size := parsed_size
      raw_line := line })
  | _ => .error unpackMsg

/-- Source `parse_log_line`: strip the line; an empty result parses to nothing;
otherwise try `APACHE_COMBINED_REGEX` then `NGINX_REGEX`, first match wins,
and hand the groups tuple to the matched-branch body.  The `Except` layer
carries the `ValueError` that the ten-into-seven unpacking raises. -/
def parse_log_line (line : String) : Except String (Option ParsedLogEntry) :=
  let line := pyStrip line
  if line = "" then .ok none
  else
    match reMatch APACHE_COMBINED_REGEX line with
    | some gs => parseLineMatched gs line
    | none =>
      match reMatch NGINX_REGEX line with
      | some gs => parseLineMatched gs line
      | none => .ok none

/-- Modelled from the claim under comparison (refinement variant):
`parse_log_line` with the second (Nginx) pattern removed.  Claim C9 states
that this variant is extensionally equal to `parse_log_line`. -/
def parse_log_line_without_nginx (line : String) : Except String (Option ParsedLogEntry) :=
  let line := pyStrip line
  if line = "" then .ok none
  else
    match reMatch APACHE_COMBINED_REGEX line with
    | some gs => parseLineMatched gs line
    | none => .ok none

/-- Source `detect_csv_format`. -/
def detect_csv_format (first_line : String) : Bool :=
  let lower_line := pyLower first_line
  CSV_HEADER_KEYWORDS.any (fun keyword => strContains lower_line keyword) ||
    strContains first_line ","

/-- The semantic roles of the CSV field map (the fixed keys of the source's
`field_map` dict). -/
inductive Role where
  | ip | timestamp | method | path | status | size
  deriving DecidableEq, Repr

/-- The `field_map` dict: role to zero-or-one column index. -/
def FieldMap := Role → Option Nat

/-- The `if/elif` chain of `detect_csv_fields`, applied to an
already-normalized header token: the first role whose keyword set matches
by substring, in the listed precedence order. -/
def headerRole (h : String) : Option Role :=
  if strContains h "ip" || strContains h "address" || strContains h "client" then some .ip
  else if strContains h "time" || strContains h "date" then some .timestamp
  else if strContains h "method" || strContains h "verb" then some .method
  else if strContains h "path" || strContains h "url" || strContains h "uri" ||
          strContains h "request" then some .path
  else if strContains h "status" || strContains h "code" || strContains h "response" then
    some .status
  else if strContains h "size" || strContains h "bytes" || strContains h "length" then
    some .size
  else none

/-- Header normalization `header.lower().strip().strip('"\'')`. -/
def normalizeHeader (h : String) : String := pyStripQuotes (pyStrip (pyLower h))

/-- One step of the `detect_csv_fields` loop: assign column `i` to the role
its header matches (overwriting a previous assignment of that role), if
any. -/
def detectStep (fm : FieldMap) (ih : Nat × String) : FieldMap :=
  match headerRole (normalizeHeader ih.2) with
  | some r => fun r' => if r' = r then some ih.1 else fm r'
  | none => fm

/-- Source `detect_csv_fields`: enumerate the headers and fold the assignment
step over them, starting from the empty map. -/
def detect_csv_fields (headers : List String) : FieldMap :=
  headers.enum.foldl detectStep (fun _ => none)

/-- Source `parse_csv_line`: the whole body sits in a `try` whose
`except (IndexError, ValueError)` returns `None`; out-of-range indexing is
therefore modelled by `Option` failure.  A size cell that is empty or the
`"-"` sentinel drops the row (`return None`), as does a row left with the
`ip`/`path`/`status` defaults only. -/
def parse_csv_line (values : List String) (field_map : FieldMap) (line : String) :
    Option ParsedLogEntry :=
  (match field_map .ip with
    | some i => values[i]?
    | none => some "unknown").bind fun ip =>
  (match field_map .timestamp with
    | some i =>
      (values[i]?).bind fun ts_str =>
        some (match pyFromIsoformat (pyReplaceZ ts_str) with
          | some t => some t
          | none => parse_apache_timestamp ts_str)
    | none => some none).bind fun timestamp =>
  (match field_map .method with
    | some i => values[i]?
    | none => some "GET").bind fun method =>
  (match field_map .path with
    | some i => values[i]?
    | none => some "/").bind fun path =>
  (match field_map .status with
    | some i =>
      (values[i]?).bind fun status_str =>
        some (if pyIsDigitStr status_str.toList then (natOfDigits status_str.toList : Int) else 0)
    | none => some 0).bind fun status =>
  (match field_map .size with
    | some i =>
      (values[i]?).bind fun size_str =>
        if size_str ≠ "" ∧ size_str ≠ "-" then
          some (if pyIsDigitStr size_str.toList then (natOfDigits size_str.toList : Int) else 0)
        else none
    | none => some 0).bind fun size =>
  if ip = "unknown" ∧ path = "/" ∧ status = 0 then none
  else some {
    ip := ip
    timestamp := timestamp
    method := method
    path := path
    protocol := "HTTP/1.1"
    status := status
    size := size
    raw_line := line }

/-- The data-row loop of `parse_csv_file` (`for i, line in
enumerate(lines[1:], start=2)`): strip each row, skip blank ones, split on
the delimiter, trim each cell of whitespace and quotes, and collect an
entry or a per-line diagnostic. -/
def csvRows (field_map : FieldMap) (delimiter : Char) :
    List String → Nat → List ParsedLogEntry × List String
  | [], _ => ([], [])
  | l :: ls, i =>
    let line := pyStrip l
    if line = "" then csvRows field_map delimiter ls (i + 1)
    else
      let values := (splitOnCharL delimiter line.toList).map
        (fun v => pyStripQuotes (pyStrip ⟨v⟩))
      let rest := csvRows field_map delimiter ls (i + 1)
      match parse_csv_line values field_map line with
      | some entry => (entry :: rest.1, rest.2)
      | none =>
        (rest.1,
         ("Line " ++ toString i ++ ": Unable to parse - \"" ++ take60 line ++ "...\"")
           :: rest.2)

/-- Source `parse_csv_file`: delimiter is tab when the header holds one, else
comma; the header is split and stripped, the field map detected; a map with
neither an `ip` nor a `path` column rejects the file with a single
diagnostic; otherwise the data rows are parsed. -/
def parse_csv_file (lines : List String) : List ParsedLogEntry × List String :=
  match lines with
  | [] => ([], ["Empty file"])
  | first_line :: rest =>
    let delimiter := if first_line.toList.contains '\t' then '\t' else ','
    let headers := (splitOnCharL delimiter first_line.toList).map (fun h => pyStrip ⟨h⟩)
    let field_map := detect_csv_fields headers
    if field_map .ip = none ∧ field_map .path = none then
      ([], ["CSV does not contain recognizable log fields (ip, path, status, etc.)"])
    else
      csvRows field_map delimiter rest 2

/-- The line-oriented loop of `parse_log_file` (`enumerate(lines,
start=1)`); a `ValueError` escaping `parse_log_line` aborts the whole call
with nothing returned, modelled by the `Except` error short-circuit. -/
def lineLoop : List String → Nat → Except String (List ParsedLogEntry × List String)
  | [], _ => .ok ([], [])
  | l :: ls, i =>
    match parse_log_line l with
    | .error e => .error e
    | .ok (some entry) => (lineLoop ls (i + 1)).map (fun p => (entry :: p.1, p.2))
    | .ok none =>
      (lineLoop ls (i + 1)).map (fun p =>
        (p.1,
         ("Line " ++ toString i ++ ": Unable to parse - \"" ++ take60 l ++ "...\"")
           :: p.2))

/-- Source `parse_log_file`: keep the non-blank lines; an empty file yields the
single `Empty file` diagnostic; a CSV-looking first line routes to the CSV
parser (which never raises), anything else to the line-oriented loop. -/
def parse_log_file (content : String) : Except String (List ParsedLogEntry × List String) :=
  let lines := ((splitOnCharL '\n' content.toList).map (fun l => (⟨l⟩ : String))).filter
    (fun line => pyStrip line != "")
  match lines with
  | [] => .ok ([], ["Empty file"])
  | first :: _ =>
    if detect_csv_format first then .ok (parse_csv_file lines)
    else lineLoop lines 1

/-! ### `spark_analyzer.py`

The DataFrame of `LOG_SCHEMA` rows is embedded as a list of `Row` values;
`df.filter(pred)` is `List.filter`.  A SQL comparison with a `NULL`
timestamp is `NULL`, which a filter drops, so the date-range predicates are
false on an absent timestamp. -/

/-- A row of `LOG_SCHEMA`. -/
structure Row where
  ip : String
  timestamp : Option DateTime
  method : String
  path : String
  protocol : String
  status : Int
  size : Int
  deriving DecidableEq, Repr

/-- The recognized keys of the `filters` dict of `apply_filters`.  The
date-range and size-range bounds arrive as strings (absent or empty ones
are falsy and skip the clause). -/
structure FilterSpec where
  dateRangeStart : Option String := none
  dateRangeEnd : Option String := none
  ipAddress : String := ""
  urlPattern : String := ""
  statusCodes : List Int := []
  httpMethods : List String := []
  sizeRangeMin : Option String := none
  sizeRangeMax : Option String := none
  deriving Repr

/-- The per-code condition of the status-codes clause: a group code
(exactly 200, 300, 400 or 500) matches its 100-wide class, any other code
matches exactly. -/
def statusCondition (code : Int) (status : Int) : Bool :=
  if code = 200 || code = 300 || code = 400 || code = 500 then
    decide (code ≤ status) && decide (status < code + 100)
  else decide (status = code)

/-- Source `apply_filters`: each clause narrows the row list in the source's
order; a date bound that `fromisoformat` rejects, or a size bound that
`int` rejects, is caught (`except ValueError: pass`) and the clause is
skipped. -/
def apply_filters (filters : FilterSpec) (df : List Row) : List Row :=
  let df := match filters.dateRangeStart with
    | none => df
    | some s =>
      if s = "" then df
      else match pyFromIsoformat s with
        | none => df
        | some start_dt =>
          df.filter (fun r => match r.timestamp with
            | none => false
            | some t => DateTime.le start_dt t)
  let df := match filters.dateRangeEnd with
    | none => df
    | some s =>
      if s = "" then df
      else match pyFromIsoformat s with
        | none => df
        | some end_dt =>
          df.filter (fun r => match r.timestamp with
            | none => false
            | some t => DateTime.le t end_dt)
  let df := if filters.ipAddress = "" then df
    else df.filter (fun r => strContains r.ip filters.ipAddress)
  let df := if filters.urlPattern = "" then df
    else df.filter (fun r => strContains r.path filters.urlPattern)
  let df := if filters.statusCodes = [] then df
    else df.filter (fun r => filters.statusCodes.any (fun code => statusCondition code r.status))
  let df := if filters.httpMethods = [] then df
    else df.filter (fun r => filters.httpMethods.contains r.method)
  let df := match filters.sizeRangeMin with
    | none => df
    | some s =>
      if s = "" then df
      else match pyInt s with
        | none => df
        | some min_size => df.filter (fun r => decide (min_size ≤ r.size))
  let df := match filters.sizeRangeMax with
    | none => df
    | some s =>
      if s = "" then df
      else match pyInt s with
        | none => df
        | some max_size => df.filter (fun r => decide (r.size ≤ max_size))
  df

/-- Source `hourly_traffic_counter`: drop rows with a `NULL` timestamp, bucket the
rest by hour of day (the `groupBy('hour').count()` aggregate, read back
through the `hour_counts` dict), and emit the dense 24-entry
`(hour, count)` list for hours 0..23. -/
def hourly_traffic_counter (df : List Row) : List (Nat × Nat) :=
  let withTs := df.filter (fun r => r.timestamp.isSome)
  let hours := withTs.filterMap (fun r => r.timestamp.map (fun t => t.hour.val))
  (List.range 24).map (fun h => (h, hours.count h))

/-- One pattern sequence refines another: every successful parse of the
first is also a successful parse of the second, with identical captures,
at the same fuel. -/
def Imp (ps1 ps2 : List Pat) : Prop :=
  ∀ (fuel : Nat) (s : List Char) (caps r : Caps),
    runP fuel ps1 s caps = some r → runP fuel ps2 s caps = some r

/-- A pattern sequence that fails on every input starting with a
whitespace character (such as one headed by a non-space literal or a
`\S`-class quantifier). -/
def HeadSpaceFails (ps : List Pat) : Prop :=
  ∀ (fuel : Nat) (c : Char) (s : List Char) (caps : Caps),
    pyIsSpace c = true → runP fuel ps (c :: s) caps = none

/-! ### The group-unpacking failure of `parse_log_line`

Both line patterns have ten capture groups, while line 68 of
`log_parser.py` unpacks `match.groups()` into seven variables, so any line
either pattern matches raises `ValueError` before a record can be built. -/

theorem groupsTuple_length (caps : Caps) (n : Nat) : (groupsTuple caps n).length = n := by
  simp [groupsTuple]

theorem reMatch_length {pats : List Pat} {s : String} {gs : List (Option String)}
    (h : reMatch pats s = some gs) : gs.length = numGroups pats := by
  unfold reMatch at h
  cases hr : runP FUEL pats s.toList [] with
  | none => rw [hr] at h; exact Option.noConfusion h
  | some caps =>
    rw [hr] at h
    have h2 : groupsTuple caps (numGroups pats) = gs := Option.some.inj h
    rw [← h2]
    exact groupsTuple_length ..

theorem parseLineMatched_ne7 (gs : List (Option String)) (line : String)
    (h : gs.length ≠ 7) : parseLineMatched gs line = .error unpackMsg := by
  unfold parseLineMatched
  split
  · rename_i heq
    exact absurd (by simp) h
  · rfl

/-- Any stripped, nonempty line that `APACHE_COMBINED_REGEX` matches makes
`parse_log_line` fail with the unpacking `ValueError`: the ten groups of the
pattern cannot be unpacked into seven names. -/
theorem parse_log_line_apache_error (line : String) (hne : pyStrip line ≠ "")
    (hm : (reMatch APACHE_COMBINED_REGEX (pyStrip line)).isSome = true) :
    parse_log_line line = .error unpackMsg := by
  unfold parse_log_line
  rw [if_neg hne]
  cases hr : reMatch APACHE_COMBINED_REGEX (pyStrip line) with
  | none => rw [hr] at hm; simp at hm
  | some gs =>
    have hlen : gs.length = 10 := reMatch_length hr
    exact parseLineMatched_ne7 gs _ (by omega)

/-- The function `parse_log_line` never returns an entry: every line either fails both
patterns (or is blank), giving `ok none`, or matches one of the ten-group
patterns and raises the unpacking `ValueError`. -/
theorem parse_log_line_cases (line : String) :
    parse_log_line line = .ok none ∨ parse_log_line line = .error unpackMsg := by
  unfold parse_log_line
  by_cases hne : pyStrip line = ""
  · rw [if_pos hne]; exact Or.inl rfl
  · rw [if_neg hne]
    cases hra : reMatch APACHE_COMBINED_REGEX (pyStrip line) with
    | some gs =>
      have hlen : gs.length = 10 := reMatch_length hra
      exact Or.inr (parseLineMatched_ne7 gs _ (by omega))
    | none =>
      cases hrn : reMatch NGINX_REGEX (pyStrip line) with
      | some gs =>
        have hlen : gs.length = 10 := reMatch_length hrn
        exact Or.inr (parseLineMatched_ne7 gs _ (by omega))
      | none => exact Or.inl rfl

/-- Claim C1, counterexample: parsing the file that consists of the literal
combined-format line with size token `-` does not silently classify and
exclude the line — the ten-into-seven group unpacking raises `ValueError`,
which escapes `parse_log_file`, so no records/diagnostics pair is returned
at all. -/
theorem c1_counterexample :
    parse_log_file
        "1.2.3.4 - - [10/Oct/2020:13:55:36 +0000] \"GET /a HTTP/1.1\" 200 -"
      = .error unpackMsg := rfl

/-- Claim C1, amended: for every line that the combined pattern matches —
the size token `-` included — `parse_log_line` raises the group-unpacking
`ValueError` instead of silently excluding the line, and the error escapes
`parse_log_file`, so parsing the file with the literal `... 200 -` line
returns no records and no diagnostics at all. -/
theorem c1_amended :
    (∀ line : String, pyStrip line ≠ "" →
      (reMatch APACHE_COMBINED_REGEX (pyStrip line)).isSome = true →
      parse_log_line line = .error unpackMsg) ∧
    parse_log_file
        "1.2.3.4 - - [10/Oct/2020:13:55:36 +0000] \"GET /a HTTP/1.1\" 200 -"
      = .error unpackMsg :=
  ⟨parse_log_line_apache_error, rfl⟩

/-- Witness for the amended C1 at the concrete `... 200 -` line. -/
theorem c1_amended_witness :
    parse_log_line "1.2.3.4 - - [10/Oct/2020:13:55:36 +0000] \"GET /a HTTP/1.1\" 200 -"
      = .error unpackMsg :=
  c1_amended.1 _ (by decide) (by decide)

/-- Claim C2, counterexample: a line whose status token is the non-numeric
`abc` does not yield a status-0 record — the pattern's `(\d+)` status group
fails, so `parse_log_line` returns no entry at all; and a line whose size
token is the non-numeric `xyz` does not yield a size-0 record — the pattern
matches and the group unpacking raises `ValueError`. -/
theorem c2_counterexample :
    parse_log_line
        "1.2.3.4 - - [10/Oct/2020:13:55:36 +0000] \"GET /a HTTP/1.1\" abc 1024"
      = .ok none ∧
    parse_log_line
        "1.2.3.4 - - [10/Oct/2020:13:55:36 +0000] \"GET /a HTTP/1.1\" 200 xyz"
      = .error unpackMsg :=
  ⟨rfl, rfl⟩

/-- Claim C2, amended: a non-numeric size token leaves the pattern matching,
whereupon `parse_log_line` raises the group-unpacking `ValueError` rather
than producing a size-0 record (general statement, first conjunct); a
non-numeric status token prevents the pattern — whose status group is
`(\d+)` — from matching, so the line is rejected with no record rather than
defaulted to status 0 (concrete exemplars, remaining conjuncts). -/
theorem c2_amended :
    (∀ line : String, pyStrip line ≠ "" →
      (reMatch APACHE_COMBINED_REGEX (pyStrip line)).isSome = true →
      parse_log_line line = .error unpackMsg) ∧
    parse_log_line
        "1.2.3.4 - - [10/Oct/2020:13:55:36 +0000] \"GET /a HTTP/1.1\" abc 1024"
      = .ok none ∧
    parse_log_line
        "1.2.3.4 - - [10/Oct/2020:13:55:36 +0000] \"GET /a HTTP/1.1\" 200 xyz"
      = .error unpackMsg :=
  ⟨parse_log_line_apache_error, rfl, rfl⟩

/-- Witness for the amended C2 at the concrete non-numeric-size line. -/
theorem c2_amended_witness :
    parse_log_line "1.2.3.4 - - [10/Oct/2020:13:55:36 +0000] \"GET /a HTTP/1.1\" 200 xyz"
      = .error unpackMsg :=
  c2_amended.1 _ (by decide) (by decide)

/-! ### CSV header detection: claims C6 and C10 -/

/-- The `detect_csv_fields` fold resolves each role to the last column whose
header matches that role (first hit of the reversed column list); columns
matching no role, or claimed by an earlier role of the precedence chain,
leave the accumulator unchanged. -/
theorem foldl_detectStep_eq (r : Role) :
    ∀ (l : List (Nat × String)) (fm : FieldMap),
      (l.foldl detectStep fm) r =
        match l.reverse.find? (fun p => headerRole (normalizeHeader p.2) == some r) with
        | some p => some p.1
        | none => fm r := by
  intro l
  induction l with
  | nil => intro fm; rfl
  | cons p l ih =>
    intro fm
    rw [List.foldl_cons, ih, List.reverse_cons, List.find?_append]
    cases hf : l.reverse.find? (fun q => headerRole (normalizeHeader q.2) == some r) with
    | some q => rfl
    | none =>
      simp only [Option.none_or]
      cases hr : headerRole (normalizeHeader p.2) with
      | none =>
        rw [List.find?_cons_of_neg _ (by simp [hr])]
        show detectStep fm p r = fm r
        unfold detectStep
        rw [hr]
      | some r' =>
        by_cases hrr : r' = r
        · rw [hrr] at hr
          rw [List.find?_cons_of_pos _ (by simp [hr])]
          show detectStep fm p r = some p.1
          unfold detectStep
          rw [hr]
          simp
        · rw [List.find?_cons_of_neg _ (by simp [hr, hrr])]
          show detectStep fm p r = fm r
          unfold detectStep
          rw [hr]
          exact if_neg (fun hh => hrr hh.symm)

/-- Claim C10: for every role, the field map produced from a header row
assigns the role to the LAST column whose (lower-cased, trimmed) header
matches it under the source's precedence chain — each later match
overwrites the earlier one, and a column that an earlier role of the chain
claimed is never considered for later roles (`headerRole` returns the
first matching role only). -/
theorem c10_last_match_wins (headers : List String) (r : Role) :
    detect_csv_fields headers r =
      (headers.enum.reverse.find?
        (fun p => headerRole (normalizeHeader p.2) == some r)).map Prod.fst := by
  unfold detect_csv_fields
  rw [foldl_detectStep_eq]
  cases hf : headers.enum.reverse.find?
      (fun p => headerRole (normalizeHeader p.2) == some r) with
  | some q => rfl
  | none => rfl

/-- Claim C6: a delimited file whose detected field map contains neither a
clientAddress (`ip`) nor a `path` column is rejected whole: zero records
and exactly the one schema diagnostic, with no per-row diagnostics. -/
theorem c6_csv_rejected (first_line : String) (rest : List String)
    (delimiter : Char) (field_map : FieldMap)
    (hd : delimiter = (if first_line.toList.contains '\t' then '\t' else ','))
    (hf : field_map = detect_csv_fields
      ((splitOnCharL delimiter first_line.toList).map (fun h => pyStrip ⟨h⟩)))
    (hip : field_map .ip = none) (hpath : field_map .path = none) :
    parse_csv_file (first_line :: rest) =
      ([], ["CSV does not contain recognizable log fields (ip, path, status, etc.)"]) := by
  subst hd
  subst hf
  simp only [parse_csv_file]
  rw [if_pos ⟨hip, hpath⟩]

/-- Witness for C6 at the concrete header `foo,bar` with one data row. -/
theorem c6_csv_rejected_witness :
    parse_csv_file ["foo,bar", "1,2"] =
      ([], ["CSV does not contain recognizable log fields (ip, path, status, etc.)"]) :=
  c6_csv_rejected "foo,bar" ["1,2"] ',' _ (by decide) rfl (by decide) (by decide)

/-! ### Claim C8: nonnegativity of `size` and `status` -/

theorem parse_csv_line_nonneg (values : List String) (fm : FieldMap) (line : String)
    (e : ParsedLogEntry) (h : parse_csv_line values fm line = some e) :
    0 ≤ e.size ∧ 0 ≤ e.status := by
  unfold parse_csv_line at h
  simp only [Option.bind_eq_some, Option.pure_def, Option.some.injEq] at h
  obtain ⟨ip, hip, ts, hts, me, hme, pa, hpa, st, hst, sz, hsz, h⟩ := h
  have hst' : 0 ≤ st := by
    cases hfs : fm .status with
    | some i =>
      rw [hfs] at hst
      simp only [Option.bind_eq_some, Option.pure_def, Option.some.injEq] at hst
      obtain ⟨s, _, hs⟩ := hst
      rw [← hs]
      split
      · exact Int.natCast_nonneg _
      · exact le_refl 0
    | none =>
      rw [hfs] at hst
      simp only [Option.pure_def, Option.some.injEq] at hst
      omega
  have hsz' : 0 ≤ sz := by
    cases hfs : fm .size with
    | some i =>
      rw [hfs] at hsz
      simp only [Option.bind_eq_some] at hsz
      obtain ⟨s, _, hs⟩ := hsz
      split at hs
      · simp only [Option.pure_def, Option.some.injEq] at hs
        rw [← hs]
        split
        · exact Int.natCast_nonneg _
        · exact le_refl 0
      · exact absurd hs (by simp)
    | none =>
      rw [hfs] at hsz
      simp only [Option.pure_def, Option.some.injEq] at hsz
      omega
  split at h
  · exact absurd h (by simp)
  · simp only [Option.some.injEq] at h
    rw [← h]
    exact ⟨hsz', hst'⟩

theorem csvRows_nonneg (fm : FieldMap) (d : Char) :
    ∀ (ls : List String) (i : Nat) (e : ParsedLogEntry),
      e ∈ (csvRows fm d ls i).1 → 0 ≤ e.size ∧ 0 ≤ e.status := by
  intro ls
  induction ls with
  | nil => intro i e he; simp [csvRows] at he
  | cons l ls ih =>
    intro i e he
    simp only [csvRows] at he
    split at he
    · exact ih _ e he
    · split at he
      · rename_i entry hp
        rcases List.mem_cons.mp he with he | he
        · rw [he]; exact parse_csv_line_nonneg _ _ _ _ hp
        · exact ih _ e he
      · exact ih _ e he

theorem parse_csv_file_nonneg (lines : List String) (e : ParsedLogEntry)
    (he : e ∈ (parse_csv_file lines).1) : 0 ≤ e.size ∧ 0 ≤ e.status := by
  cases lines with
  | nil => simp [parse_csv_file] at he
  | cons first_line rest =>
    simp only [parse_csv_file] at he
    split at he <;> split at he
    all_goals first
      | exact csvRows_nonneg _ _ _ _ e he
      | simp at he

theorem lineLoop_no_entries :
    ∀ (ls : List String) (i : Nat) (out : List ParsedLogEntry × List String),
      lineLoop ls i = .ok out → out.1 = [] := by
  intro ls
  induction ls with
  | nil =>
    intro i out h
    unfold lineLoop at h
    have h2 : ([], []) = out := Except.ok.inj h
    rw [← h2]
  | cons l ls ih =>
    intro i out h
    unfold lineLoop at h
    rcases parse_log_line_cases l with hc | hc <;> rw [hc] at h
    · cases hr : lineLoop ls (i + 1) with
      | error msg => rw [hr] at h; exact Except.noConfusion h
      | ok p =>
        rw [hr] at h
        have h2 := Except.ok.inj h
        rw [← h2]
        exact ih _ p hr
    · exact Except.noConfusion h

/-- Claim C8: every record produced by any parsing path of
`parse_log_file` — line-oriented or CSV — has `size ≥ 0` and
`status ≥ 0` (both fields are either 0 or the value of an unsigned digit
string). -/
theorem c8_nonneg_sizes (content : String) (entries : List ParsedLogEntry)
    (errors : List String) (h : parse_log_file content = .ok (entries, errors))
    (e : ParsedLogEntry) (he : e ∈ entries) : 0 ≤ e.size ∧ 0 ≤ e.status := by
  simp only [parse_log_file] at h
  split at h
  · have h2 := Except.ok.inj h
    have h3 : entries = ([] : List ParsedLogEntry) := congrArg Prod.fst h2.symm
    rw [h3] at he
    simp at he
  · split at h
    · have h2 := Except.ok.inj h
      have h3 : (parse_csv_file _).1 = entries := congrArg Prod.fst h2
      exact parse_csv_file_nonneg _ e (h3 ▸ he)
    · have h3 : entries = [] := lineLoop_no_entries _ _ _ h
      rw [h3] at he
      simp at he

/-- Witness for C8: the CSV file `ip,path,status,bytes` / `1.2.3.4,/a,200,500`
parses to exactly one record, whose size and status are nonnegative. -/
theorem c8_nonneg_sizes_witness :
    0 ≤ ({ ip := "1.2.3.4", timestamp := none, method := "GET", path := "/a",
           protocol := "HTTP/1.1", status := 200, size := 500,
           raw_line := "1.2.3.4,/a,200,500" } : ParsedLogEntry).size ∧
    0 ≤ ({ ip := "1.2.3.4", timestamp := none, method := "GET", path := "/a",
           protocol := "HTTP/1.1", status := 200, size := 500,
           raw_line := "1.2.3.4,/a,200,500" } : ParsedLogEntry).status :=
  c8_nonneg_sizes "ip,path,status,bytes\n1.2.3.4,/a,200,500" _ [] rfl _
    (List.mem_singleton.mpr rfl)

/-! ### Claim C3: status-code group filtering -/

theorem statusCondition_iff (c s : Int) :
    statusCondition c s = true ↔
      ((c = 200 ∨ c = 300 ∨ c = 400 ∨ c = 500) ∧ c ≤ s ∧ s < c + 100) ∨
      (¬(c = 200 ∨ c = 300 ∨ c = 400 ∨ c = 500) ∧ s = c) := by
  unfold statusCondition
  split_ifs with hcond
  · simp only [Bool.or_eq_true, decide_eq_true_eq] at hcond
    constructor
    · intro hb
      simp only [Bool.and_eq_true, decide_eq_true_eq] at hb
      exact Or.inl ⟨by tauto, hb⟩
    · intro hp
      rcases hp with ⟨_, h1, h2⟩ | ⟨hn, _⟩
      · simp [h1, h2]
      · exact absurd (by tauto) hn
  · simp only [Bool.or_eq_true, decide_eq_true_eq] at hcond
    constructor
    · intro hb
      simp only [decide_eq_true_eq] at hb
      exact Or.inr ⟨by tauto, hb⟩
    · intro hp
      rcases hp with ⟨hy, _, _⟩ | ⟨_, heq⟩
      · exact absurd (by tauto) hcond
      · simp [heq]

/-- Claim C3: for a nonempty `statusCodes` filter, a record passes the
status clause iff some listed code matches it, a code in
{200, 300, 400, 500} matching the half-open class [code, code+100) and any
other code matching exactly; in particular, with codes `[404, 500]`, the
records with statuses 503, 404 and 501 all pass. -/
theorem c3_status_filter :
    (∀ (codes : List Int) (r : Row), codes ≠ [] →
      (apply_filters { statusCodes := codes } [r] = [r] ↔
        ∃ c ∈ codes,
          ((c = 200 ∨ c = 300 ∨ c = 400 ∨ c = 500) ∧ c ≤ r.status ∧ r.status < c + 100) ∨
          (¬(c = 200 ∨ c = 300 ∨ c = 400 ∨ c = 500) ∧ r.status = c))) ∧
    (apply_filters { statusCodes := [404, 500] }
        [{ ip := "a", timestamp := none, method := "GET", path := "/",
           protocol := "HTTP/1.1", status := 503, size := 0 },
         { ip := "a", timestamp := none, method := "GET", path := "/",
           protocol := "HTTP/1.1", status := 404, size := 0 },
         { ip := "a", timestamp := none, method := "GET", path := "/",
           protocol := "HTTP/1.1", status := 501, size := 0 }] =
      [{ ip := "a", timestamp := none, method := "GET", path := "/",
         protocol := "HTTP/1.1", status := 503, size := 0 },
       { ip := "a", timestamp := none, method := "GET", path := "/",
         protocol := "HTTP/1.1", status := 404, size := 0 },
       { ip := "a", timestamp := none, method := "GET", path := "/",
         protocol := "HTTP/1.1", status := 501, size := 0 }]) := by
  constructor
  · intro codes r hcodes
    have hfilter : ∀ p : Row → Bool, List.filter p [r] = [r] ↔ p r = true := by
      intro p
      by_cases hp : p r = true <;> simp [List.filter, hp]
    have happ : apply_filters { statusCodes := codes } [r] =
        if codes = [] then [r]
        else List.filter (fun q => codes.any (fun code => statusCondition code q.status)) [r] := by
      simp [apply_filters]
    rw [happ, if_neg hcodes, hfilter, List.any_eq_true]
    constructor
    · rintro ⟨c, hc, hcond⟩
      exact ⟨c, hc, (statusCondition_iff c r.status).mp hcond⟩
    · rintro ⟨c, hc, hcond⟩
      exact ⟨c, hc, (statusCondition_iff c r.status).mpr hcond⟩
  · decide

/-- Witness for C3: with codes `[404, 500]`, the status-503 record passes
the filter (via the 500-class group predicate). -/
theorem c3_status_filter_witness :
    apply_filters { statusCodes := [404, 500] }
        [{ ip := "a", timestamp := none, method := "GET", path := "/",
           protocol := "HTTP/1.1", status := 503, size := 0 }] =
      [{ ip := "a", timestamp := none, method := "GET", path := "/",
         protocol := "HTTP/1.1", status := 503, size := 0 }] :=
  (c3_status_filter.1 [404, 500] _ (by decide)).mpr
    ⟨500, by decide, Or.inl (by norm_num)⟩

/-! ### Claim C7: malformed filter bounds are ignored -/

/-- Claim C7: a `dateRange` bound that `fromisoformat` rejects, or a
`sizeRange` bound that `int()` rejects, is caught and the clause skipped:
the filter result is the one with that clause absent, all other clauses
still applying; no error escapes `apply_filters` (the embedding is total). -/
theorem c7_bad_filters_ignored (filters : FilterSpec) (df : List Row) :
    (∀ s, filters.dateRangeStart = some s → pyFromIsoformat s = none →
      apply_filters filters df = apply_filters { filters with dateRangeStart := none } df) ∧
    (∀ s, filters.dateRangeEnd = some s → pyFromIsoformat s = none →
      apply_filters filters df = apply_filters { filters with dateRangeEnd := none } df) ∧
    (∀ s, filters.sizeRangeMin = some s → pyInt s = none →
      apply_filters filters df = apply_filters { filters with sizeRangeMin := none } df) ∧
    (∀ s, filters.sizeRangeMax = some s → pyInt s = none →
      apply_filters filters df = apply_filters { filters with sizeRangeMax := none } df) := by
  refine ⟨?_, ?_, ?_, ?_⟩ <;>
    (intro s hs hp
     simp only [apply_filters, hs, hp]
     by_cases hemp : s = "" <;> simp [hemp])

/-- Witness for C7: an unparsable date bound and an unparsable size bound
are both ignored on a concrete record list. -/
theorem c7_bad_filters_ignored_witness :
    apply_filters { dateRangeStart := some "not-a-date" }
        [{ ip := "a", timestamp := none, method := "GET", path := "/",
           protocol := "HTTP/1.1", status := 200, size := 5 }] =
      apply_filters
        { ({ dateRangeStart := some "not-a-date" } : FilterSpec) with dateRangeStart := none }
        [{ ip := "a", timestamp := none, method := "GET", path := "/",
           protocol := "HTTP/1.1", status := 200, size := 5 }] ∧
    apply_filters { sizeRangeMin := some "huge" }
        [{ ip := "a", timestamp := none, method := "GET", path := "/",
           protocol := "HTTP/1.1", status := 200, size := 5 }] =
      apply_filters
        { ({ sizeRangeMin := some "huge" } : FilterSpec) with sizeRangeMin := none }
        [{ ip := "a", timestamp := none, method := "GET", path := "/",
           protocol := "HTTP/1.1", status := 200, size := 5 }] :=
  ⟨(c7_bad_filters_ignored _ _).1 "not-a-date" rfl (by decide),
   (c7_bad_filters_ignored _ _).2.2.1 "huge" rfl (by decide)⟩

/-! ### Claim C4: the hourly-traffic aggregate -/

theorem sum_map_add {α : Type} (L : List α) (f g : α → Nat) :
    (L.map (fun a => f a + g a)).sum = (L.map f).sum + (L.map g).sum := by
  induction L with
  | nil => simp
  | cons a L ih => simp [ih]; omega

theorem sum_indicator (x : Nat) (n : Nat) :
    ((List.range n).map (fun h => if x = h then 1 else 0)).sum = if x < n then 1 else 0 := by
  induction n with
  | zero => simp
  | succ n ih =>
    rw [List.range_succ, List.map_append, List.sum_append, ih]
    simp only [List.map_cons, List.map_nil, List.sum_cons, List.sum_nil]
    split_ifs <;> omega

theorem sum_counts (n : Nat) (l : List Nat) (hb : ∀ x ∈ l, x < n) :
    ((List.range n).map (fun h => l.count h)).sum = l.length := by
  induction l with
  | nil => simp
  | cons x l ih =>
    have hx : x < n := hb x (List.mem_cons_self x l)
    have ihl := ih (fun y hy => hb y (List.mem_cons_of_mem _ hy))
    have hcc : ∀ h : Nat, (x :: l).count h = l.count h + (if x = h then 1 else 0) := by
      intro h
      rw [List.count_cons]
      congr 1
      by_cases hxh : x = h <;> simp [hxh]
    simp only [hcc]
    rw [sum_map_add, ihl, sum_indicator, if_pos hx, List.length_cons]

theorem hoursOf_length (l : List Row) (hl : ∀ r ∈ l, r.timestamp.isSome) :
    (l.filterMap (fun r => r.timestamp.map (fun t => t.hour.val))).length = l.length := by
  induction l with
  | nil => simp
  | cons r l ih =>
    have hr := hl r (List.mem_cons_self r l)
    obtain ⟨t, ht⟩ := Option.isSome_iff_exists.mp hr
    have ihl := ih (fun y hy => hl y (List.mem_cons_of_mem _ hy))
    simp [List.filterMap_cons, ht, ihl]

/-- Claim C4: the hourly-traffic result always has exactly 24 entries, the
hours 0..23 in order, each once; records with an absent timestamp are
excluded, so the counts sum to the number of filtered records that carry a
timestamp — hence at most the number of filtered records, with equality
when no timestamp is absent. -/
theorem c4_hourly_dense (df : List Row) :
    (hourly_traffic_counter df).length = 24 ∧
    (hourly_traffic_counter df).map Prod.fst = List.range 24 ∧
    ((hourly_traffic_counter df).map Prod.snd).sum =
      (df.filter (fun r => r.timestamp.isSome)).length ∧
    ((hourly_traffic_counter df).map Prod.snd).sum ≤ df.length ∧
    ((∀ r ∈ df, r.timestamp.isSome) →
      ((hourly_traffic_counter df).map Prod.snd).sum = df.length) := by
  have hsum : ((hourly_traffic_counter df).map Prod.snd).sum =
      (df.filter (fun r => r.timestamp.isSome)).length := by
    unfold hourly_traffic_counter
    rw [List.map_map]
    have hb : ∀ x ∈ (df.filter (fun r => r.timestamp.isSome)).filterMap
        (fun r => r.timestamp.map (fun t => t.hour.val)), x < 24 := by
      intro x hx
      obtain ⟨r, _, hfx⟩ := List.mem_filterMap.mp hx
      cases ht : r.timestamp with
      | none => rw [ht] at hfx; exact absurd hfx (by simp)
      | some t =>
        rw [ht] at hfx
        rw [← Option.some.inj hfx]
        exact t.hour.isLt
    have := sum_counts 24 _ hb
    rw [show ((List.range 24).map
        (Prod.snd ∘ fun h => (h, ((df.filter (fun r => r.timestamp.isSome)).filterMap
          (fun r => r.timestamp.map (fun t => t.hour.val))).count h))) =
        ((List.range 24).map (fun h => ((df.filter (fun r => r.timestamp.isSome)).filterMap
          (fun r => r.timestamp.map (fun t => t.hour.val))).count h)) from rfl, this]
    exact hoursOf_length _ (fun r hr => (List.mem_filter.mp hr).2)
  refine ⟨by simp [hourly_traffic_counter], ?_, hsum, ?_, ?_⟩
  · unfold hourly_traffic_counter
    rw [List.map_map]
    simp [Function.comp_def]
  · rw [hsum]
    exact List.length_filter_le _ _
  · intro hall
    rw [hsum, List.filter_eq_self.mpr (fun r hr => hall r hr)]

/-- Witness for C4 at a one-record list whose record carries a timestamp:
the 24 hourly counts sum to the record count. -/
theorem c4_hourly_dense_witness :
    ((hourly_traffic_counter
        [{ ip := "a", timestamp := some ⟨2020, 10, 10, ⟨13, by decide⟩, 55, 36⟩,
           method := "GET", path := "/", protocol := "HTTP/1.1",
           status := 200, size := 5 }]).map Prod.snd).sum =
      ([{ ip := "a", timestamp := some ⟨2020, 10, 10, ⟨13, by decide⟩, 55, 36⟩,
          method := "GET", path := "/", protocol := "HTTP/1.1",
          status := 200, size := 5 }] : List Row).length :=
  (c4_hourly_dense _).2.2.2.2 (by decide)

/-! ### Claim C9: the Nginx pattern is subsumed by the Apache pattern

The two regexes differ only in their third and fifth items: `\S+` in the
Apache pattern versus the literal `-` in the Nginx one.  Whenever the Nginx
pattern matches, the token in those positions is a lone `-` followed by
whitespace, which is exactly the maximal `\S+` run the greedy Apache
matcher commits to, so the Apache pattern matches with identical captures.
The lemmas below establish this over the interpreter `runP`. -/

theorem charsSpan_append (k : CharCls) :
    ∀ s : List Char, (charsSpan k s).1 ++ (charsSpan k s).2 = s := by
  intro s
  induction s with
  | nil => rfl
  | cons c s ih =>
    unfold charsSpan
    by_cases h : k.mem c = true
    · simp only [h, if_true]
      simpa using ih
    · simp [h]

theorem charsSpan_mem (k : CharCls) :
    ∀ s : List Char, ∀ c ∈ (charsSpan k s).1, k.mem c = true := by
  intro s
  induction s with
  | nil => intro c hc; simp [charsSpan] at hc
  | cons c0 s ih =>
    intro c hc
    unfold charsSpan at hc
    by_cases h : k.mem c0 = true
    · simp only [h, if_true] at hc
      rcases List.mem_cons.mp (by simpa using hc) with hc | hc
      · rw [hc]; exact h
      · exact ih c hc
    · simp [h] at hc

theorem charsSpan_not_mem (k : CharCls) (c : Char) (s : List Char)
    (h : k.mem c = false) : charsSpan k (c :: s) = ([], c :: s) := by
  simp [charsSpan, h]

theorem charsSpan_cons_mem (k : CharCls) (c : Char) (s : List Char)
    (h : k.mem c = true) :
    charsSpan k (c :: s) = (c :: (charsSpan k s).1, (charsSpan k s).2) := by
  simp [charsSpan, h]

theorem firstSome_cons {α β : Type} (f : α → Option β) (a : α) (l : List α) :
    firstSome f (a :: l) =
      match f a with
      | some b => some b
      | none => firstSome f l := rfl

theorem firstSome_append {α β : Type} (f : α → Option β) (l1 l2 : List α) :
    firstSome f (l1 ++ l2) =
      match firstSome f l1 with
      | some b => some b
      | none => firstSome f l2 := by
  induction l1 with
  | nil => rfl
  | cons a l1 ih =>
    rw [List.cons_append, firstSome_cons, firstSome_cons]
    cases f a with
    | some b => rfl
    | none => exact ih

theorem firstSome_map {α γ β : Type} (f : α → Option β) (g : γ → α) (l : List γ) :
    firstSome f (l.map g) = firstSome (fun x => f (g x)) l := by
  induction l with
  | nil => rfl
  | cons a l ih =>
    show firstSome f (g a :: l.map g) = _
    unfold firstSome
    cases f (g a) with
    | some b => rfl
    | none => exact ih

/-- The spine of the greedy-quantifier argument: when the continuation `F`
fails on every string that still starts with a `k`-character, the
backtracking walk over the descending splits of a `k`-run reduces to the
single maximal-consumption attempt. -/
theorem firstSome_descSplits {β : Type} (k : CharCls) :
    ∀ (run : List Char) (F : List Char × List Char → Option β) (rest : List Char),
      (∀ pre c s', k.mem c = true → F (pre, c :: s') = none) →
      (∀ c ∈ run, k.mem c = true) →
      firstSome F (descSplits run rest) =
        (match run with
         | [] => none
         | _ :: _ => F (run, rest)) := by
  intro run
  induction run with
  | nil => intro F rest _ _; rfl
  | cons c run ih =>
    intro F rest hfail hrun
    rw [show descSplits (c :: run) rest =
        (descSplits run rest).map (fun pr => (c :: pr.1, pr.2)) ++ [([c], run ++ rest)]
      from rfl]
    rw [firstSome_append, firstSome_map]
    rw [ih (fun pr => F (c :: pr.1, pr.2)) rest
        (fun pre c' s' hm => hfail (c :: pre) c' s' hm)
        (fun x hx => hrun x (List.mem_cons_of_mem _ hx))]
    cases hrn : run with
    | nil =>
      show firstSome F [([c], [] ++ rest)] = F ([c], rest)
      rw [List.nil_append, firstSome_cons]
      cases F ([c], rest) <;> rfl
    | cons c2 run2 =>
      show (match F (c :: c2 :: run2, rest) with
            | some b => some b
            | none => firstSome F [([c], c2 :: (run2 ++ rest))]) =
          F (c :: c2 :: run2, rest)
      cases hF : F (c :: c2 :: run2, rest) with
      | some b => rfl
      | none =>
        have h2 : F ([c], c2 :: (run2 ++ rest)) = none :=
          hfail [c] c2 (run2 ++ rest) (hrun c2 (by rw [hrn]; simp))
        rw [firstSome_cons, h2]
        rfl

/-! Normal forms of `runP` at the item shapes the argument needs. -/

theorem runP_lit (fuel : Nat) (c : Char) (ps : List Pat) (s : List Char) (caps : Caps) :
    runP (fuel + 1) (.simple (.lit c) :: ps) s caps =
      match s with
      | [] => none
      | c' :: s' => if c' = c then runP fuel ps s' caps else none := rfl

theorem runP_plus (fuel : Nat) (k : CharCls) (ps : List Pat) (s : List Char) (caps : Caps) :
    runP (fuel + 1) (.simple (.plus k) :: ps) s caps =
      firstSome (fun pr => runP fuel ps pr.2 caps)
        (descSplits (charsSpan k s).1 (charsSpan k s).2) := by
  simp only [runP]

theorem runP_grpPlus (fuel : Nat) (n : Nat) (k : CharCls) (ps : List Pat)
    (s : List Char) (caps : Caps) :
    runP (fuel + 1) (.simple (.grpPlus n k) :: ps) s caps =
      firstSome (fun pr => runP fuel ps pr.2 ((n, pr.1) :: caps))
        (descSplits (charsSpan k s).1 (charsSpan k s).2) := by
  simp only [runP]

theorem runP_plus_not_head (fuel : Nat) (k : CharCls) (ps : List Pat) (c : Char)
    (s : List Char) (caps : Caps) (h : k.mem c = false) :
    runP fuel (.simple (.plus k) :: ps) (c :: s) caps = none := by
  cases fuel with
  | zero => rfl
  | succ fuel => rw [runP_plus, charsSpan_not_mem k c s h]; rfl

theorem runP_plus_nil (fuel : Nat) (k : CharCls) (ps : List Pat) (caps : Caps) :
    runP fuel (.simple (.plus k) :: ps) [] caps = none := by
  cases fuel with
  | zero => rfl
  | succ fuel => rw [runP_plus]; rfl

theorem runP_lit_ne (fuel : Nat) (c c' : Char) (ps : List Pat) (s : List Char)
    (caps : Caps) (h : c' ≠ c) :
    runP fuel (.simple (.lit c) :: ps) (c' :: s) caps = none := by
  cases fuel with
  | zero => rfl
  | succ fuel => rw [runP_lit]; exact if_neg h

/-- Success of a `+`-quantified class guarantees the input starts with a
character of that class. -/
theorem runP_plus_head {fuel : Nat} {k : CharCls} {ps : List Pat} {s : List Char}
    {caps r : Caps} (h : runP fuel (.simple (.plus k) :: ps) s caps = some r) :
    ∃ c s', s = c :: s' ∧ k.mem c = true := by
  cases fuel with
  | zero => exact absurd h (by simp [runP])
  | succ fuel =>
    cases s with
    | nil => rw [runP_plus_nil] at h; exact Option.noConfusion h
    | cons c s' =>
      cases hm : k.mem c with
      | false =>
        rw [runP_plus_not_head (fuel + 1) k ps c s' caps hm] at h
        exact Option.noConfusion h
      | true => exact ⟨c, s', rfl, hm⟩

theorem imp_refl (ps : List Pat) : Imp ps ps := fun _ _ _ _ h => h

theorem hsf_lit (c0 : Char) (ps : List Pat) (h0 : pyIsSpace c0 = false) :
    HeadSpaceFails (.simple (.lit c0) :: ps) := by
  intro fuel c s caps hc
  apply runP_lit_ne
  intro he
  rw [he, h0] at hc
  exact Bool.noConfusion hc

theorem hsf_plus_nonspace (ps : List Pat) :
    HeadSpaceFails (.simple (.plus .nonspace) :: ps) := by
  intro fuel c s caps hc
  apply runP_plus_not_head
  show (!pyIsSpace c) = false
  rw [hc]
  rfl

/-- Congruence of refinement through a shared `\s+` item: a greedy space
run can only hand over to a continuation that does not start with a space,
so both sides commit to the same (maximal) split. -/
theorem imp_plusSpace (T1 T2 : List Pat) (hT : Imp T1 T2)
    (h1 : HeadSpaceFails T1) (h2 : HeadSpaceFails T2) :
    Imp (.simple (.plus .space) :: T1) (.simple (.plus .space) :: T2) := by
  intro fuel s caps r h
  cases fuel with
  | zero => exact absurd h (by simp [runP])
  | succ fuel =>
    rw [runP_plus] at h ⊢
    rw [firstSome_descSplits .space _ _ _
        (fun pre c s' hm => h1 fuel c s' caps hm)
        (charsSpan_mem .space s)] at h
    rw [firstSome_descSplits .space _ _ _
        (fun pre c s' hm => h2 fuel c s' caps hm)
        (charsSpan_mem .space s)]
    cases hrn : (charsSpan CharCls.space s).1 with
    | nil =>
      rw [hrn] at h
      exact Option.noConfusion h
    | cons c2 run2 =>
      rw [hrn] at h
      have hF1 : runP fuel T1 (charsSpan CharCls.space s).2 caps = some r := h
      exact hT fuel _ caps r hF1

/-- The heart of claim C9: a literal `-` token (as in the Nginx pattern)
in a position the Apache pattern fills with `\S+` is matched identically by
the greedy `\S+`: on any input the Nginx pattern accepts, the `-` is
followed by whitespace, so the maximal `\S+` run the Apache matcher tries
first is exactly that one-character token. -/
theorem imp_dashTok (T1 T2 : List Pat) (hT : Imp T1 T2)
    (h1 : HeadSpaceFails T1) (h2 : HeadSpaceFails T2) :
    Imp (.simple (.lit '-') :: .simple (.plus .space) :: T1)
        (.simple (.plus .nonspace) :: .simple (.plus .space) :: T2) := by
  intro fuel s caps r h
  cases fuel with
  | zero => exact absurd h (by simp [runP])
  | succ fuel =>
    rw [runP_lit] at h
    cases s with
    | nil => exact Option.noConfusion h
    | cons c' s0 =>
      replace h : (if c' = '-' then
          runP fuel (.simple (.plus .space) :: T1) s0 caps else none) = some r := h
      by_cases hc : c' = '-'
      · rw [if_pos hc] at h
        subst hc
        obtain ⟨c2, s1, hs0, hmem⟩ := runP_plus_head h
        subst hs0
        have h' := imp_plusSpace T1 T2 hT h1 h2 fuel (c2 :: s1) caps r h
        have hsp : pyIsSpace c2 = true := hmem
        rw [runP_plus]
        have e1 : CharCls.mem .nonspace '-' = true := by decide
        have e2 : CharCls.mem .nonspace c2 = false := by
          show (!pyIsSpace c2) = false
          rw [hsp]
          rfl
        rw [charsSpan_cons_mem _ _ _ e1, charsSpan_not_mem _ _ _ e2]
        simp only [descSplits, List.map_nil, List.nil_append, firstSome_cons, h']
      · rw [if_neg hc] at h
        exact Option.noConfusion h

/-- Congruence of refinement through the shared leading `(\S+)` capture
group: both sides commit to the same maximal non-space run (the
continuation starts with `\s+`), capturing the same group-1 text. -/
theorem imp_grpPlus_nonspace (T1 T2 : List Pat)
    (hT : Imp (.simple (.plus .space) :: T1) (.simple (.plus .space) :: T2)) :
    Imp (.simple (.grpPlus 1 .nonspace) :: .simple (.plus .space) :: T1)
        (.simple (.grpPlus 1 .nonspace) :: .simple (.plus .space) :: T2) := by
  intro fuel s caps r h
  cases fuel with
  | zero => exact absurd h (by simp [runP])
  | succ fuel =>
    rw [runP_grpPlus] at h ⊢
    have hfail : ∀ (T : List Pat) (pre : List Char) (c : Char) (s' : List Char),
        CharCls.mem .nonspace c = true →
        runP fuel (.simple (.plus .space) :: T) (c :: s') ((1, pre) :: caps) = none := by
      intro T pre c s' hm
      apply runP_plus_not_head
      show pyIsSpace c = false
      have hb : (!pyIsSpace c) = true := hm
      cases hps : pyIsSpace c
      · rfl
      · rw [hps] at hb; exact Bool.noConfusion hb
    rw [firstSome_descSplits .nonspace _ _ _ (hfail T1) (charsSpan_mem .nonspace s)] at h
    rw [firstSome_descSplits .nonspace _ _ _ (hfail T2) (charsSpan_mem .nonspace s)]
    cases hrn : (charsSpan CharCls.nonspace s).1 with
    | nil =>
      rw [hrn] at h
      exact Option.noConfusion h
    | cons c2 run2 =>
      rw [hrn] at h
      have hF1 : runP fuel (.simple (.plus .space) :: T1) (charsSpan CharCls.nonspace s).2
          ((1, c2 :: run2) :: caps) = some r := h
      exact hT fuel _ _ r hF1

/-- Whenever `NGINX_REGEX` matches, `APACHE_COMBINED_REGEX` matches the
same input with the same captures. -/
theorem nginx_imp_apache : Imp NGINX_REGEX APACHE_COMBINED_REGEX := by
  have hREST : HeadSpaceFails COMBINED_TAIL := hsf_lit '[' _ (by decide)
  have h1 : Imp (.simple (.lit '-') :: .simple (.plus .space) :: COMBINED_TAIL)
      (.simple (.plus .nonspace) :: .simple (.plus .space) :: COMBINED_TAIL) :=
    imp_dashTok _ _ (imp_refl _) hREST hREST
  have hsfA1 : HeadSpaceFails
      (.simple (.lit '-') :: .simple (.plus .space) :: COMBINED_TAIL) :=
    hsf_lit '-' _ (by decide)
  have hsfB1 : HeadSpaceFails
      (.simple (.plus .nonspace) :: .simple (.plus .space) :: COMBINED_TAIL) :=
    hsf_plus_nonspace _
  have h2 := imp_dashTok _ _ h1 hsfA1 hsfB1
  have hsfA2 : HeadSpaceFails (.simple (.lit '-') :: .simple (.plus .space) ::
      .simple (.lit '-') :: .simple (.plus .space) :: COMBINED_TAIL) :=
    hsf_lit '-' _ (by decide)
  have hsfB2 : HeadSpaceFails (.simple (.plus .nonspace) :: .simple (.plus .space) ::
      .simple (.plus .nonspace) :: .simple (.plus .space) :: COMBINED_TAIL) :=
    hsf_plus_nonspace _
  have h3 := imp_plusSpace _ _ h2 hsfA2 hsfB2
  exact imp_grpPlus_nonspace _ _ h3

/-- Claim C9: whenever the second (Nginx) line pattern matches, the first
(Apache combined) pattern — tried first — matches with the identical
`groups()` tuple; consequently the Nginx pattern never determines the
result and `parse_log_line` is extensionally unchanged when it is
removed. -/
theorem c9_nginx_redundant :
    (∀ (s : String) (gs : List (Option String)),
      reMatch NGINX_REGEX s = some gs → reMatch APACHE_COMBINED_REGEX s = some gs) ∧
    (∀ line : String, parse_log_line line = parse_log_line_without_nginx line) := by
  have hmain : ∀ (s : String) (gs : List (Option String)),
      reMatch NGINX_REGEX s = some gs → reMatch APACHE_COMBINED_REGEX s = some gs := by
    intro s gs h
    unfold reMatch at h ⊢
    cases hr : runP FUEL NGINX_REGEX s.toList [] with
    | none => rw [hr] at h; exact Option.noConfusion h
    | some caps =>
      rw [hr] at h
      rw [nginx_imp_apache FUEL s.toList [] caps hr]
      have hng : numGroups NGINX_REGEX = numGroups APACHE_COMBINED_REGEX := by decide
      rw [← hng]
      exact h
  refine ⟨hmain, ?_⟩
  intro line
  unfold parse_log_line parse_log_line_without_nginx
  by_cases hne : pyStrip line = ""
  · rw [if_pos hne, if_pos hne]
  · rw [if_neg hne, if_neg hne]
    cases ha : reMatch APACHE_COMBINED_REGEX (pyStrip line) with
    | some gs => rfl
    | none =>
      cases hn : reMatch NGINX_REGEX (pyStrip line) with
      | none => rfl
      | some gs =>
        have := hmain _ _ hn
        rw [ha] at this
        exact Option.noConfusion this

/-- Witness for C9: a concrete line the Nginx pattern matches; by the
theorem, the Apache pattern yields the identical ten-entry groups tuple. -/
theorem c9_nginx_redundant_witness :
    reMatch APACHE_COMBINED_REGEX "a - - [t] \"GET /p HTTP/1.1\" 200 5" =
      some [some "a", some "t", some "GET", some "/p", some "HTTP/1.1",
            some "200", some "5", none, none, none] :=
  c9_nginx_redundant.1 _ _ (by decide)

/-- Claim C5: evaluating the code at the claim's round-trip line.  Instead
of the specified record (clientAddress 10.0.0.1, GET /index.html, status
200, size 1024, naive timestamp 2020-10-10T13:55:36), `parse_log_line`
raises `ValueError` — the pattern matches, but its ten capture groups are
unpacked into seven variables. -/
theorem c5_unpack_bug :
    parse_log_line
        "10.0.0.1 - - [10/Oct/2020:13:55:36 +0000] \"GET /index.html HTTP/1.1\" 200 1024"
      = .error unpackMsg := rfl

end WebLog
